import Mathlib

/-!
Shallow embedding of the illumemail conversion service (`src/server.js`,
current revision) together with proofs about the claims of its
specification.  JavaScript strings are modelled as lists of Unicode code
points (`Str`); byte streams as lists of naturals below 256 (`Bytes`).
External collaborators (the mailparser `simpleParser`, the puppeteer page
operations, the Node `Buffer.from`) are modelled abstractly: the parser and
the render outcomes are parameters of the pipeline model, and base64
decoding follows the documented lenient Node semantics.
-/

/-- A JavaScript string, modelled as its list of Unicode code points. -/
abbrev Str := List Char

/-- A raw byte stream (each element is a byte value, kept below 256 by
hypotheses where it matters). -/
abbrev Bytes := List Nat

/-- JavaScript truthiness test for an optional string: `undefined` and the
empty string are falsy (`!value`). -/
def strFalsy (v : Option Str) : Bool :=
  match v with
  | none => true
  | some s => s.isEmpty

/-- JavaScript `value || default` for an optional string operand: returns
the default when the operand is absent or empty. -/
def jsOrDefault (v : Option Str) (d : Str) : Str :=
  match v with
  | none => d
  | some s => if s.isEmpty then d else s

/-- `String.prototype.replace` with a global single-character pattern:
every occurrence of the character `c` is replaced by `rep`. -/
def jsReplaceAllChar (c : Char) (rep : Str) (s : Str) : Str :=
  s.flatMap (fun x => if x = c then rep else [x])

/-- The apostrophe character `U+0027`. -/
def apos : Char := Char.ofNat 39

/-- The entity text `&#039;` used by `escapeHtml` for apostrophes. -/
def aposEntity : Str := "&#039;".toList

/-- Embedding of `escapeHtml` (`src/server.js`): the chained global
replacements `& → &amp;`, `< → &lt;`, `> → &gt;`, `" → &quot;`,
and apostrophe to `&#039;`, applied in that order. -/
def escapeHtml (s : Str) : Str :=
  jsReplaceAllChar apos aposEntity
    (jsReplaceAllChar '"' "&quot;".toList
      (jsReplaceAllChar '>' "&gt;".toList
        (jsReplaceAllChar '<' "&lt;".toList
          (jsReplaceAllChar '&' "&amp;".toList s))))

/-- The character class of the first `replace` in `sanitizeHeaderValue`,
the regex class `[\r\n\x00-\x1F\x7F]`. -/
def jsCtrlClass (c : Char) : Bool :=
  decide (c.toNat = 13 ∨ c.toNat = 10 ∨ c.toNat ≤ 0x1F ∨ c.toNat = 0x7F)

/-- ECMAScript white space and line terminator characters, the set removed
from both ends of a string by `String.prototype.trim`. -/
def jsWhitespace (c : Char) : Bool :=
  decide (c.toNat = 9 ∨ c.toNat = 10 ∨ c.toNat = 11 ∨ c.toNat = 12 ∨
    c.toNat = 13 ∨ c.toNat = 32 ∨ c.toNat = 0xA0 ∨ c.toNat = 0x1680 ∨
    (0x2000 ≤ c.toNat ∧ c.toNat ≤ 0x200A) ∨ c.toNat = 0x2028 ∨
    c.toNat = 0x2029 ∨ c.toNat = 0x202F ∨ c.toNat = 0x205F ∨
    c.toNat = 0x3000 ∨ c.toNat = 0xFEFF)

/-- Printable ASCII, the regex class `[\x20-\x7E]` kept by the second
`replace` in `sanitizeHeaderValue`. -/
def printableAscii (c : Char) : Bool :=
  decide (0x20 ≤ c.toNat ∧ c.toNat ≤ 0x7E)

/-- Helper for `collapseRuns`: `inRun` records whether the previous
character belonged to a run of the class (in which case further class
characters are absorbed into the already-emitted space). -/
def collapseRunsAux (p : Char → Bool) (inRun : Bool) : List Char → List Char
  | [] => []
  | c :: cs =>
    if p c then
      if inRun then collapseRunsAux p true cs
      else ' ' :: collapseRunsAux p true cs
    else c :: collapseRunsAux p false cs

/-- A regex global replacement of `[class]+` by a single space: each
maximal run of characters satisfying `p` becomes one space. -/
def collapseRuns (p : Char → Bool) (l : List Char) : List Char :=
  collapseRunsAux p false l

/-- Drop the longest suffix of characters satisfying `p`. -/
def dropTrailing (p : Char → Bool) (l : List Char) : List Char :=
  (l.reverse.dropWhile p).reverse

/-- `String.prototype.trim`: remove leading and trailing ECMAScript white
space. -/
def jsTrim (l : Str) : Str :=
  dropTrailing jsWhitespace (l.dropWhile jsWhitespace)

/-- The second `replace` of `sanitizeHeaderValue`: strip every character
outside printable ASCII. -/
def stripNonPrintable (l : Str) : Str :=
  l.filter printableAscii

/-- The truncation step of `sanitizeHeaderValue`: strings longer than 255
characters are cut to 255 characters and an ellipsis marker is appended. -/
def truncate255 (l : Str) : Str :=
  if 255 < l.length then l.take 255 ++ "...".toList else l

/-- Embedding of `sanitizeHeaderValue` (`src/server.js`): absent or empty
input yields the empty string; otherwise collapse runs of
`[\r\n\x00-\x1F\x7F]` to a single space, trim, strip non-printable-ASCII
characters, and truncate to 255 characters plus an ellipsis marker. -/
def sanitizeHeaderValue (v : Option Str) : Str :=
  match v with
  | none => []
  | some s =>
    if s.isEmpty then []
    else truncate255 (stripNonPrintable (jsTrim (collapseRuns jsCtrlClass s)))


/-- The fields of a mailparser `ParsedMail` object that the service reads.
`fromText`/`toText` model `from?.text` / `to?.text`; `fromAddr`/`toAddr`
model `from?.value[0]?.address` / `to?.value[0]?.address`.  `none` stands
for an absent (`undefined`) value. -/
structure ParsedEmail where
  messageId : Option Str
  fromText : Option Str
  fromAddr : Option Str
  toText : Option Str
  toAddr : Option Str
  subject : Option Str
  html : Option Str
  text : Option Str
deriving DecidableEq

/-- The fallback body of `generateEmailHtml`:
a `<pre>` wrapper around the plain-text body (or its default). -/
def preWrappedText (t : Option Str) : Str :=
  "<pre>".toList ++ jsOrDefault t "No content available".toList ++ "</pre>".toList

/-- `parsedEmail.html || <pre>...</pre>` in `generateEmailHtml`. -/
def emailBodyContent (pe : ParsedEmail) : Str :=
  jsOrDefault pe.html (preWrappedText pe.text)

/-- Template text of `generateEmailHtml` before the message id. -/
def tmplHead : Str :=
  ("\n        <html>\n        <head>\n            <meta charset=\"UTF-8\">\n            <style>\n                body \x7b\n                    font-family: Arial, sans-serif;\n                    line-height: 1.5;\n                    margin: 20px;\n                    overflow-wrap: break-word;\n                    word-break: break-word;\n                \x7d\n                pre \x7b\n                    white-space: pre-wrap;\n                    overflow-wrap: break-word;\n                    word-break: break-word;\n                \x7d\n                .header \x7b\n                    margin-bottom: 20px;\n                    padding: 10px;\n                    background-color: #f9f9f9;\n                    border: 1px solid #ddd;\n                    border-radius: 5px;\n                \x7d\n                .header div \x7b \n                    margin: 5px 0; \n                \x7d\n                .content \x7b \n                    padding-top: 20px; \n                    border-top: 1px solid #ddd; \n                    margin-top: 20px; \n                \x7d\n            </style>\n        </head>\n        <body>\n            <div class=\"header\">\n                <div><strong>Message ID:</strong> ").toList

/-- Template text between the message id and the sender display text. -/
def tmplAfterMsgId : Str :=
  ("</div>\n                <div><strong>From:</strong> ").toList

/-- Template text between a display name and the matching address. -/
def tmplAddrOpen : Str :=
  (" <span class=\"email-address\">(").toList

/-- Template text between the sender address and the recipient text. -/
def tmplAfterFrom : Str :=
  (")</span></div>\n                <div><strong>To:</strong> ").toList

/-- Template text between the recipient address and the subject. -/
def tmplAfterTo : Str :=
  (")</span></div>\n                <div><strong>Subject:</strong> ").toList

/-- Template text between the subject and the body content. -/
def tmplAfterSubject : Str :=
  ("</div>\n            </div>\n            <div class=\"content\">\n                ").toList

/-- Template text after the body content. -/
def tmplTail : Str :=
  ("\n            </div>\n        </body>\n        </html>\n    ").toList

/-- Embedding of `generateEmailHtml` (`src/server.js`): the synthesized
HTML document.  Note that, as in the source, only the message id passes
through `escapeHtml`; sender, recipient, subject, addresses and the body
are interpolated verbatim. -/
def generateEmailHtml (pe : ParsedEmail) : Str :=
  tmplHead ++ escapeHtml (jsOrDefault pe.messageId "Unknown".toList) ++
  tmplAfterMsgId ++ jsOrDefault pe.fromText "Unknown Sender".toList ++
  tmplAddrOpen ++ jsOrDefault pe.fromAddr "Unknown".toList ++
  tmplAfterFrom ++ jsOrDefault pe.toText "Unknown Recipient".toList ++
  tmplAddrOpen ++ jsOrDefault pe.toAddr "Unknown".toList ++
  tmplAfterTo ++ jsOrDefault pe.subject "No Subject".toList ++
  tmplAfterSubject ++ emailBodyContent pe ++
  tmplTail

/-- Outcome of the external puppeteer page operations for one request,
a parameter of the pipeline model: document load may fail (e.g. the 60 s
timeout), the screenshot may fail after dimensions `(w, h)` were measured,
or everything succeeds with measured dimensions `(w, h)`.  `w` models
`min(scrollWidth, 1024)` and `h` models `scrollHeight`. -/
inductive RenderBehavior where
  | loadFail (msg : Str)
  | shotFail (w h : Nat) (msg : Str)
  | success (w h : Nat)
deriving DecidableEq

/-- Resource events of one pipeline run: acquisition (`browser.newPage()`)
and release (`page.close()`) of the page handle. -/
inductive Ev where
  | pageOpen
  | pageClose
deriving DecidableEq

/-- The screenshot region: either `fullPage: true`, or the clip
`{x: 0, y: 0, width: w, height: h}`. -/
inductive Capture where
  | fullPage
  | clip (w h : Nat)
deriving DecidableEq

/-- The observable success response of `processEmailContent`: the three
sanitized metadata headers, the truncation flag header, the two
conditional height headers, the captured region, and the captured height
as reported in the success log. -/
structure SuccessResponse where
  xSubject : Str
  xFrom : Str
  xMsgId : Str
  truncated : Bool
  hdrActualHeight : Option Nat
  hdrCapturedHeight : Option Nat
  capture : Capture
  capturedHeight : Nat
deriving DecidableEq

/-- The response sent on the `res` object: a JPEG success response or a
status code with an error message (`res.status(st).send({error: msg})`). -/
inductive Resp where
  | ok (r : SuccessResponse)
  | err (status : Nat) (msg : Str)
deriving DecidableEq

/-- Status code of a response (200 for the JPEG success path). -/
def statusOf : Resp → Nat
  | .ok _ => 200
  | .err st _ => st

/-- Result of one request: the page lifecycle events, in order, and the
response. -/
structure Output where
  events : List Ev
  response : Resp
deriving DecidableEq

/-- The error message thrown when the parsed email has neither a text nor
an HTML body. -/
def emptyContentMsg : Str :=
  "The provided content is not a valid .eml file.".toList

/-- Embedding of `processEmailContent` (`src/server.js`).  `parse` models
the external `simpleParser` (returning its parsed email or the message of
the exception it throws), `rb` the puppeteer outcomes, and `maxH` the
`MAX_SCREENSHOT_HEIGHT` configuration.  The catch block responds with
status 400 and the error message; the page is closed only on the success
path, exactly as in the source. -/
def processEmailContent (bytes : Bytes) (parse : Bytes → Except Str ParsedEmail)
    (rb : RenderBehavior) (maxH : Nat) : Output :=
  match parse bytes with
  | .error msg => { events := [], response := .err 400 msg }
  | .ok pe =>
    if strFalsy pe.text && strFalsy pe.html then
      { events := [], response := .err 400 emptyContentMsg }
    else
      match rb with
      | .loadFail msg => { events := [.pageOpen], response := .err 400 msg }
      | .shotFail _ _ msg => { events := [.pageOpen], response := .err 400 msg }
      | .success w h =>
        let truncated : Bool := decide (maxH < h)
        { events := [.pageOpen, .pageClose],
          response := .ok
            { xSubject := sanitizeHeaderValue pe.subject,
              xFrom := sanitizeHeaderValue pe.fromText,
              xMsgId := sanitizeHeaderValue (some (jsOrDefault pe.messageId "Unknown".toList)),
              truncated := truncated,
              hdrActualHeight := if truncated then some h else none,
              hdrCapturedHeight := if truncated then some maxH else none,
              capture := if truncated then .clip w maxH else .fullPage,
              capturedHeight := if truncated then maxH else h } }

/-- Embedding of the `/convert` handler body (`src/server.js`): reject
when no file part is present, otherwise run the pipeline on the uploaded
bytes.  The temporary-file cleanup touches only the file system and is
not part of the observable output. -/
def convertHandler (file : Option Bytes) (parse : Bytes → Except Str ParsedEmail)
    (rb : RenderBehavior) (maxH : Nat) : Output :=
  match file with
  | none => { events := [], response := .err 400 "No file uploaded.".toList }
  | some bytes => processEmailContent bytes parse rb maxH

/-- A JSON value that may sit in the `eml_content` field of the
`/convert-api` request body: a string or a number. -/
inductive JsVal where
  | str (s : Str)
  | num (n : Int)
deriving DecidableEq

/-- JavaScript truthiness of an optional JSON value: `undefined`, the
empty string and `0` are falsy. -/
def jsValFalsy (v : Option JsVal) : Bool :=
  match v with
  | none => true
  | some (.str s) => s.isEmpty
  | some (.num n) => n == 0

/-- The base64 alphabet value of a character, `none` for characters
outside the alphabet (Node ignores those while decoding). -/
def charToVal (c : Char) : Option Nat :=
  let n := c.toNat
  if 65 ≤ n ∧ n ≤ 90 then some (n - 65)
  else if 97 ≤ n ∧ n ≤ 122 then some (n - 97 + 26)
  else if 48 ≤ n ∧ n ≤ 57 then some (n - 48 + 52)
  else if n = 43 then some 62
  else if n = 47 then some 63
  else none

/-- The base64 alphabet character of a 6-bit value. -/
def valToChar (v : Nat) : Char :=
  if v < 26 then Char.ofNat (65 + v)
  else if v < 52 then Char.ofNat (97 + v - 26)
  else if v < 62 then Char.ofNat (48 + v - 52)
  else if v = 62 then Char.ofNat 43
  else Char.ofNat 47

/-- Standard base64 encoding of a byte sequence, with `=` padding. -/
def b64Encode : Bytes → Str
  | [] => []
  | [b1] => [valToChar (b1 / 4), valToChar (b1 % 4 * 16), '=', '=']
  | [b1, b2] =>
    [valToChar (b1 / 4), valToChar (b1 % 4 * 16 + b2 / 16),
     valToChar (b2 % 16 * 4), '=']
  | b1 :: b2 :: b3 :: rest =>
    valToChar (b1 / 4) :: valToChar (b1 % 4 * 16 + b2 / 16) ::
    valToChar (b2 % 16 * 4 + b3 / 64) :: valToChar (b3 % 64) ::
    b64Encode rest

/-- Reassemble bytes from a stream of 6-bit values: groups of four values
give three bytes; a trailing group of three gives two bytes, of two gives
one byte, and a single leftover value is dropped. -/
def b64Regroup : List Nat → Bytes
  | v1 :: v2 :: v3 :: v4 :: rest =>
    (v1 * 4 + v2 / 16) :: (v2 % 16 * 16 + v3 / 4) :: (v3 % 4 * 64 + v4) ::
    b64Regroup rest
  | [v1, v2, v3] => [v1 * 4 + v2 / 16, v2 % 16 * 16 + v3 / 4]
  | [v1, v2] => [v1 * 4 + v2 / 16]
  | _ => []

/-- Lenient Node base64 decoding of a string (`Buffer.from` with the base64 encoding):
characters outside the alphabet (including `=` padding and whitespace) are
ignored and the remaining 6-bit values are regrouped into bytes; it never
throws for a string argument. -/
def b64DecodeLenient (s : Str) : Bytes :=
  b64Regroup (s.filterMap charToVal)

/-- Model of the Node base64 `Buffer.from` call as made by the
`/convert-api` handler: lenient, total decoding for string arguments, and
a thrown `TypeError` for a numeric argument. -/
def nodeBufferFromBase64 : JsVal → Except Str Bytes
  | .str s => .ok (b64DecodeLenient s)
  | .num _ => .error "TypeError: first argument must be a string or buffer-like".toList

/-- The error message sent by the `/convert-api` catch block. -/
def invalidB64Msg : Str := "Invalid base64-encoded content.".toList

/-- Embedding of the `/convert-api` handler body (`src/server.js`): reject
a falsy `eml_content`, decode the base64 payload (responding with the
decode error, without touching any rendering resource, when decoding
throws), then run the pipeline on the decoded bytes. -/
def convertApiHandler (body : Option JsVal) (parse : Bytes → Except Str ParsedEmail)
    (rb : RenderBehavior) (maxH : Nat) : Output :=
  if jsValFalsy body then
    { events := [], response := .err 400 "No .eml content provided.".toList }
  else
    match body with
    | none => { events := [], response := .err 400 "No .eml content provided.".toList }
    | some v =>
      match nodeBufferFromBase64 v with
      | .error _ => { events := [], response := .err 400 invalidB64Msg }
      | .ok bytes => processEmailContent bytes parse rb maxH


/-- Per-character escaping as the claim describes it: each of the five
special characters becomes its HTML entity, every other character is kept
as itself. -/
def htmlEscapeCharSpec (c : Char) : Str :=
  if c = '&' then "&amp;".toList
  else if c = '<' then "&lt;".toList
  else if c = '>' then "&gt;".toList
  else if c = '"' then "&quot;".toList
  else if c = apos then aposEntity
  else [c]

lemma jsReplaceAllChar_append (c : Char) (rep : Str) (a b : Str) :
    jsReplaceAllChar c rep (a ++ b) =
      jsReplaceAllChar c rep a ++ jsReplaceAllChar c rep b := by
  simp [jsReplaceAllChar]

lemma escapeHtml_append (a b : Str) :
    escapeHtml (a ++ b) = escapeHtml a ++ escapeHtml b := by
  simp [escapeHtml, jsReplaceAllChar_append]

lemma escapeHtml_single (c : Char) :
    escapeHtml [c] = htmlEscapeCharSpec c := by
  by_cases h1 : c = '&'
  · subst h1; decide
  by_cases h2 : c = '<'
  · subst h2; decide
  by_cases h3 : c = '>'
  · subst h3; decide
  by_cases h4 : c = '"'
  · subst h4; decide
  by_cases h5 : c = apos
  · subst h5; decide
  simp [escapeHtml, jsReplaceAllChar, htmlEscapeCharSpec, h1, h2, h3, h4, h5]

lemma escapeHtml_flatMap (s : Str) :
    escapeHtml s = s.flatMap htmlEscapeCharSpec := by
  induction s with
  | nil => rfl
  | cons c cs ih =>
    calc escapeHtml (c :: cs)
        = escapeHtml [c] ++ escapeHtml cs := escapeHtml_append [c] cs
      _ = htmlEscapeCharSpec c ++ cs.flatMap htmlEscapeCharSpec := by
          rw [escapeHtml_single, ih]
      _ = (c :: cs).flatMap htmlEscapeCharSpec := (List.flatMap_cons ..).symm

lemma mem_htmlEscapeCharSpec_not_special (x c : Char)
    (hc : c ∈ htmlEscapeCharSpec x) :
    ¬(c = '<' ∨ c = '>' ∨ c = '"' ∨ c = apos) := by
  unfold htmlEscapeCharSpec at hc
  split_ifs at hc with h1 h2 h3 h4 h5
  · have hm : c ∈ ['&', 'a', 'm', 'p', ';'] := hc
    fin_cases hm <;> decide
  · have hm : c ∈ ['&', 'l', 't', ';'] := hc
    fin_cases hm <;> decide
  · have hm : c ∈ ['&', 'g', 't', ';'] := hc
    fin_cases hm <;> decide
  · have hm : c ∈ ['&', 'q', 'u', 'o', 't', ';'] := hc
    fin_cases hm <;> decide
  · have hm : c ∈ ['&', '#', '0', '3', '9', ';'] := hc
    fin_cases hm <;> decide
  · simp only [List.mem_singleton] at hc
    subst hc
    simp only [not_or]
    exact ⟨h2, h3, h4, h5⟩

/-- C10: for every input string, `escapeHtml` maps each character to its
HTML entity (`&` to `&amp;`, `<` to `&lt;`, `>` to `&gt;`, `"` to
`&quot;`, apostrophe to `&#039;`) and keeps all others, so its output
contains no occurrence of `<`, `>`, `"` or the apostrophe. -/
theorem escapeHtml_characterization (s : Str) :
    escapeHtml s = s.flatMap htmlEscapeCharSpec ∧
    ∀ c ∈ escapeHtml s, ¬(c = '<' ∨ c = '>' ∨ c = '"' ∨ c = apos) := by
  refine ⟨escapeHtml_flatMap s, ?_⟩
  intro c hc
  rw [escapeHtml_flatMap] at hc
  obtain ⟨x, _, hcx⟩ := List.mem_flatMap.mp hc
  exact mem_htmlEscapeCharSpec_not_special x c hcx

/-- A parsed email whose subject carries hostile markup, with an HTML
body present. -/
def scriptSubjectEmail : ParsedEmail :=
  { messageId := none, fromText := none, fromAddr := none, toText := none,
    toAddr := none, subject := some "<script>".toList,
    html := some "<p>hi</p>".toList, text := none }

/-- C1: refutation on the code.  `generateEmailHtml` interpolates the
subject without `escapeHtml`, so for a subject `<script>` the synthesized
document contains the raw, unescaped substring `<script>` (while the
escaping the claim requires would have produced `&lt;script&gt;`). -/
theorem generateEmailHtml_subject_unescaped :
    (∃ p q : Str, generateEmailHtml scriptSubjectEmail =
      p ++ "<script>".toList ++ q) ∧
    escapeHtml "<script>".toList = "&lt;script&gt;".toList := by
  refine ⟨⟨tmplHead ++ escapeHtml "Unknown".toList ++ tmplAfterMsgId ++
    "Unknown Sender".toList ++ tmplAddrOpen ++ "Unknown".toList ++
    tmplAfterFrom ++ "Unknown Recipient".toList ++ tmplAddrOpen ++
    "Unknown".toList ++ tmplAfterTo,
    tmplAfterSubject ++ emailBodyContent scriptSubjectEmail ++ tmplTail, ?_⟩,
    by decide⟩
  simp [generateEmailHtml, scriptSubjectEmail, jsOrDefault, List.append_assoc]

lemma truncate255_length (l : Str) : (truncate255 l).length ≤ 258 := by
  unfold truncate255
  split
  · simp
  · omega

lemma mem_truncate255 (c : Char) (l : Str) (hc : c ∈ truncate255 l) :
    c ∈ l ∨ c = '.' := by
  unfold truncate255 at hc
  split at hc
  · rcases List.mem_append.mp hc with h | h
    · exact Or.inl (List.mem_of_mem_take h)
    · right
      have hm : c ∈ ['.', '.', '.'] := h
      fin_cases hm <;> rfl
  · exact Or.inl hc

lemma mem_stripNonPrintable (c : Char) (l : Str) (hc : c ∈ stripNonPrintable l) :
    printableAscii c = true :=
  (List.mem_filter.mp hc).2

lemma sanitizeHeaderValue_printable (v : Option Str) :
    ∀ c ∈ sanitizeHeaderValue v, printableAscii c = true := by
  intro c hc
  rcases v with _ | s
  · simp [sanitizeHeaderValue] at hc
  · simp only [sanitizeHeaderValue] at hc
    split at hc
    · simp at hc
    · rcases mem_truncate255 c _ hc with h | h
      · exact mem_stripNonPrintable c _ h
      · subst h; decide

lemma sanitizeHeaderValue_length (v : Option Str) :
    (sanitizeHeaderValue v).length ≤ 258 := by
  rcases v with _ | s
  · simp [sanitizeHeaderValue]
  · simp only [sanitizeHeaderValue]
    split
    · simp
    · exact truncate255_length _

lemma collapseRunsAux_of_no_class (p : Char → Bool) (l : List Char)
    (h : ∀ c ∈ l, p c = false) : ∀ b, collapseRunsAux p b l = l := by
  induction l with
  | nil => intro b; rfl
  | cons c cs ih =>
    intro b
    have hc : p c = false := h c (List.mem_cons_self ..)
    simp only [collapseRunsAux, hc, Bool.false_eq_true, if_false]
    rw [ih (fun x hx => h x (List.mem_cons_of_mem _ hx)) false]

lemma mem_jsTrim (c : Char) (l : Str) (hc : c ∈ jsTrim l) : c ∈ l := by
  unfold jsTrim dropTrailing at hc
  rw [List.mem_reverse] at hc
  have h1 := (List.dropWhile_sublist _).subset hc
  rw [List.mem_reverse] at h1
  exact (List.dropWhile_sublist _).subset h1

lemma printable_not_ctrl (c : Char) (h : printableAscii c = true) :
    jsCtrlClass c = false := by
  simp only [printableAscii, decide_eq_true_eq] at h
  simp only [jsCtrlClass, decide_eq_false_iff_not]
  omega

/-- C4 counterexample: the claim of idempotence fails.  For the input
`é a` (`U+00E9`, space, `a`) the sanitizer trims before stripping the
non-ASCII `é`, so its output ` a` keeps a leading space that a second
application removes. -/
theorem sanitizeHeaderValue_not_idempotent :
    sanitizeHeaderValue (some (sanitizeHeaderValue (some [Char.ofNat 0xE9, ' ', 'a']))) ≠
      sanitizeHeaderValue (some [Char.ofNat 0xE9, ' ', 'a']) := by decide

/-- C4 (amended): for every input the output of `sanitizeHeaderValue` has
length at most 255 plus the three-character ellipsis marker and contains
only printable ASCII; and re-sanitizing an already-sanitized value changes
it at most by trimming leading/trailing spaces (left behind when non-ASCII
characters adjacent to the ends were stripped after trimming) followed by
re-truncation — so the sanitizer is idempotent exactly on outputs without
edge spaces, but not in general. -/
theorem sanitizeHeaderValue_amended (v : Option Str) :
    (sanitizeHeaderValue v).length ≤ 258 ∧
    (∀ c ∈ sanitizeHeaderValue v, printableAscii c = true) ∧
    sanitizeHeaderValue (some (sanitizeHeaderValue v)) =
      truncate255 (jsTrim (sanitizeHeaderValue v)) := by
  refine ⟨sanitizeHeaderValue_length v, sanitizeHeaderValue_printable v, ?_⟩
  by_cases h0 : sanitizeHeaderValue v = []
  · rw [h0]
    decide
  · have hprint := sanitizeHeaderValue_printable v
    conv_lhs => rw [sanitizeHeaderValue]
    rw [if_neg (by simpa [List.isEmpty_iff] using h0)]
    rw [collapseRuns, collapseRunsAux_of_no_class jsCtrlClass _
      (fun c hc => printable_not_ctrl c (hprint c hc)) false]
    congr 1
    apply List.filter_eq_self.mpr
    intro c hc
    exact hprint c (mem_jsTrim c _ hc)

/-- The character class named by the claim sentence for the collapse step:
carriage return, line feed, and the C0 (`U+0000`-`U+001F`) and C1
(`U+0080`-`U+009F`) control characters. -/
def claimC0C1Class (c : Char) : Bool :=
  decide (c.toNat = 13 ∨ c.toNat = 10 ∨ c.toNat ≤ 0x1F ∨
    (0x80 ≤ c.toNat ∧ c.toNat ≤ 0x9F))

/-- The Metadata Sanitizer exactly as the claim sentence describes it:
CR/LF and C0/C1 controls collapsed to a single space, the result trimmed,
remaining non-printable-ASCII stripped, then truncated to 255 characters
with an ellipsis marker; absent input yields the empty string. -/
def sanitizeClaimDescription (v : Option Str) : Str :=
  match v with
  | none => []
  | some s =>
    truncate255 (stripNonPrintable (jsTrim (collapseRuns claimC0C1Class s)))

/-- C5 counterexample: the code does not collapse C1 control characters to
a space — it strips them.  On `a`, `U+0085` (NEL, a C1 control), `b` the
code yields `ab` while the claimed description yields `a b`. -/
theorem sanitizeHeaderValue_c1_not_collapsed :
    sanitizeHeaderValue (some ['a', Char.ofNat 0x85, 'b']) = ['a', 'b'] ∧
    sanitizeClaimDescription (some ['a', Char.ofNat 0x85, 'b']) = ['a', ' ', 'b'] ∧
    sanitizeHeaderValue (some ['a', Char.ofNat 0x85, 'b']) ≠
      sanitizeClaimDescription (some ['a', Char.ofNat 0x85, 'b']) := by decide

/-- The collapse class of the amended claim: CR, LF, the C0 controls
(`U+0000`-`U+001F`) and DEL (`U+007F`). -/
def amendedCollapseClass (c : Char) : Bool :=
  decide (c.toNat < 0x20 ∨ c.toNat = 0x7F)

/-- The Metadata Sanitizer as the amended claim describes it: CR/LF, C0
controls and DEL collapsed to a single space and the result trimmed; all
remaining non-printable-ASCII code points (including the C1 controls)
stripped; truncation to 255 characters with a trailing ellipsis marker;
absent input yields the empty string. -/
def sanitizeAmendedDescription (v : Option Str) : Str :=
  match v with
  | none => []
  | some s =>
    truncate255 (stripNonPrintable (jsTrim (collapseRuns amendedCollapseClass s)))

lemma amendedCollapseClass_eq_jsCtrlClass :
    amendedCollapseClass = jsCtrlClass := by
  funext c
  simp only [amendedCollapseClass, jsCtrlClass, decide_eq_decide]
  omega

/-- C5 (amended): `sanitizeHeaderValue` is total and agrees on every input
with the amended description: CR/LF, C0 controls and DEL are collapsed to
a single space and the result trimmed; the remaining non-printable-ASCII
code points (C1 controls among them) are stripped; the result is truncated
to 255 characters plus a trailing ellipsis marker; absent input yields the
empty string. -/
theorem sanitizeHeaderValue_spec (v : Option Str) :
    sanitizeHeaderValue v = sanitizeAmendedDescription v := by
  rcases v with _ | s
  · rfl
  · simp only [sanitizeHeaderValue, sanitizeAmendedDescription,
      amendedCollapseClass_eq_jsCtrlClass]
    split
    · rename_i hs
      rw [List.isEmpty_iff] at hs
      subst hs
      rfl
    · rfl

/-- A decoded email with neither an HTML nor a plain-text body. -/
def bodylessEmail : ParsedEmail :=
  { messageId := some "<id@x>".toList, fromText := some "A".toList,
    fromAddr := some "a@x".toList, toText := some "B".toList,
    toAddr := some "b@x".toList, subject := some "S".toList,
    html := none, text := none }

/-- A valid parsed email with a plain-text body. -/
def textEmail : ParsedEmail :=
  { messageId := some "<id@x>".toList, fromText := some "Alice".toList,
    fromAddr := some "alice@example.com".toList, toText := some "Bob".toList,
    toAddr := some "bob@example.com".toList, subject := some "Greetings".toList,
    html := none, text := some "hi".toList }

/-- C6: when the decoded email has neither an HTML nor a plain-text body,
the pipeline responds with the terminal parse-failure error (status 400,
descriptive message), performs no page acquisition (so no rendering or
capture), and produces no image bytes — whatever the render behaviour
would have been. -/
theorem processEmailContent_emptyContent (bytes : Bytes)
    (parse : Bytes → Except Str ParsedEmail) (rb : RenderBehavior)
    (maxH : Nat) (pe : ParsedEmail) (hp : parse bytes = .ok pe)
    (hh : pe.html = none) (ht : pe.text = none) :
    processEmailContent bytes parse rb maxH =
      { events := [], response := .err 400 emptyContentMsg } := by
  unfold processEmailContent
  rw [hp]
  simp [strFalsy, hh, ht]

/-- Closed witness for `processEmailContent_emptyContent`. -/
theorem processEmailContent_emptyContent_witness :
    processEmailContent [] (fun _ => .ok bodylessEmail) (.success 1024 100) 500 =
      { events := [], response := .err 400 emptyContentMsg } :=
  processEmailContent_emptyContent [] (fun _ => .ok bodylessEmail)
    (.success 1024 100) 500 bodylessEmail rfl rfl rfl

/-- C3: on a successful capture with measured dimensions `(w, h)`, the
pipeline truncates exactly when `h` exceeds the configured maximum: it
then captures the clip of the top `maxH` pixels at the full measured
width, reports the measured height and the captured height (`maxH`) in
the response headers; otherwise it takes a full-page capture with
`capturedHeight` equal to the measured height and reports neither height
header. -/
theorem processEmailContent_truncationPolicy (bytes : Bytes)
    (parse : Bytes → Except Str ParsedEmail) (maxH : Nat) (pe : ParsedEmail)
    (w h : Nat) (hp : parse bytes = .ok pe)
    (hbody : ¬(strFalsy pe.text = true ∧ strFalsy pe.html = true)) :
    ∃ r, (processEmailContent bytes parse (.success w h) maxH).response = .ok r ∧
      r.truncated = decide (maxH < h) ∧
      (maxH < h →
        r.capture = .clip w maxH ∧ r.capturedHeight = maxH ∧
        r.hdrActualHeight = some h ∧ r.hdrCapturedHeight = some maxH) ∧
      (h ≤ maxH →
        r.capture = .fullPage ∧ r.capturedHeight = h ∧ r.truncated = false ∧
        r.hdrActualHeight = none ∧ r.hdrCapturedHeight = none) := by
  have hcond : (strFalsy pe.text && strFalsy pe.html) = false := by
    cases hx : strFalsy pe.text <;> cases hy : strFalsy pe.html <;> simp_all
  unfold processEmailContent
  rw [hp]
  dsimp only
  rw [hcond]
  simp only [Bool.false_eq_true, if_false]
  refine ⟨_, rfl, rfl, ?_, ?_⟩
  · intro hlt
    simp [hlt]
  · intro hle
    have hnlt : ¬(maxH < h) := by omega
    simp [hnlt]

/-- Closed witness for `processEmailContent_truncationPolicy` (measured
height 2000 against a configured maximum of 500). -/
theorem processEmailContent_truncationPolicy_witness :
    ∃ r, (processEmailContent [] (fun _ => .ok textEmail)
        (.success 1024 2000) 500).response = .ok r ∧
      r.truncated = decide (500 < 2000) ∧
      (500 < 2000 →
        r.capture = .clip 1024 500 ∧ r.capturedHeight = 500 ∧
        r.hdrActualHeight = some 2000 ∧ r.hdrCapturedHeight = some 500) ∧
      (2000 ≤ 500 →
        r.capture = .fullPage ∧ r.capturedHeight = 2000 ∧ r.truncated = false ∧
        r.hdrActualHeight = none ∧ r.hdrCapturedHeight = none) :=
  processEmailContent_truncationPolicy [] (fun _ => .ok textEmail) 500
    textEmail 1024 2000 rfl (by decide)

/-- C7 counterexample: a malformed-input failure and a rendering failure
(the 60 s navigation timeout) are both reported with status 400 — the two
failure classes are not distinguishable by status code. -/
theorem failureStatus_not_distinct :
    statusOf (processEmailContent []
      (fun _ => .error "Error parsing email".toList) (.success 1024 100) 500).response = 400 ∧
    statusOf (processEmailContent [] (fun _ => .ok textEmail)
      (.loadFail "Navigation timeout of 60000 ms exceeded".toList) 500).response = 400 := by
  decide

/-- C7 (amended): every failure of `processEmailContent` — malformed or
empty input as well as internal rendering/capture failures — is reported
with the single client-error status 400; the failure classes are
distinguishable only by the error message, not by status code. -/
theorem failureStatus_always_400 (bytes : Bytes)
    (parse : Bytes → Except Str ParsedEmail) (rb : RenderBehavior)
    (maxH : Nat) (st : Nat) (msg : Str)
    (h : (processEmailContent bytes parse rb maxH).response = .err st msg) :
    st = 400 := by
  unfold processEmailContent at h
  cases hpb : parse bytes with
  | error m =>
    rw [hpb] at h
    dsimp only at h
    injection h with h1 _
    exact h1.symm
  | ok pe =>
    rw [hpb] at h
    dsimp only at h
    split at h
    · dsimp only at h
      injection h with h1 _
      exact h1.symm
    · split at h
      · dsimp only at h
        injection h with h1 _
        exact h1.symm
      · dsimp only at h
        injection h with h1 _
        exact h1.symm
      · dsimp only at h
        exact absurd h (by simp)

/-- Closed witness for `failureStatus_always_400`. -/
theorem failureStatus_always_400_witness : (400 : Nat) = 400 :=
  failureStatus_always_400 [] (fun _ => .error "Error parsing email".toList)
    (.success 1 1) 500 400 "Error parsing email".toList rfl

/-- C2: refutation on the code.  When document load fails (for instance
the 60 s timeout) after the page was created, the catch block responds
without closing the page: one acquisition, zero releases — the page
handle leaks, so releases do not match acquisitions. -/
theorem pageLeak_on_loadFailure :
    (processEmailContent [] (fun _ => .ok textEmail)
      (.loadFail "Navigation timeout of 60000 ms exceeded".toList) 500).events.count .pageOpen = 1 ∧
    (processEmailContent [] (fun _ => .ok textEmail)
      (.loadFail "Navigation timeout of 60000 ms exceeded".toList) 500).events.count .pageClose = 0 := by
  decide

lemma charToVal_valToChar (v : Nat) (hv : v < 64) :
    charToVal (valToChar v) = some v := by
  have h : ∀ x : Fin 64, charToVal (valToChar x.val) = some x.val := by decide
  exact h ⟨v, hv⟩

lemma charToVal_padChar : charToVal '=' = none := by decide

lemma b64_roundtrip (bytes : Bytes) (hb : ∀ b ∈ bytes, b < 256) :
    b64DecodeLenient (b64Encode bytes) = bytes := by
  match bytes with
  | [] => rfl
  | [b1] =>
    have h1 : b1 < 256 := hb b1 (by simp)
    unfold b64DecodeLenient b64Encode
    rw [List.filterMap_cons, List.filterMap_cons, List.filterMap_cons,
      List.filterMap_cons, List.filterMap_nil,
      charToVal_valToChar _ (by omega), charToVal_valToChar _ (by omega),
      charToVal_padChar]
    unfold b64Regroup
    simp only [List.cons.injEq, and_true]
    omega
  | [b1, b2] =>
    have h1 : b1 < 256 := hb b1 (by simp)
    have h2 : b2 < 256 := hb b2 (by simp)
    unfold b64DecodeLenient b64Encode
    rw [List.filterMap_cons, List.filterMap_cons, List.filterMap_cons,
      List.filterMap_cons, List.filterMap_nil,
      charToVal_valToChar _ (by omega), charToVal_valToChar _ (by omega),
      charToVal_valToChar _ (by omega), charToVal_padChar]
    unfold b64Regroup
    simp only [List.cons.injEq, and_true]
    constructor
    · omega
    · omega
  | b1 :: b2 :: b3 :: rest =>
    have h1 : b1 < 256 := hb b1 (by simp)
    have h2 : b2 < 256 := hb b2 (by simp)
    have h3 : b3 < 256 := hb b3 (by simp)
    have ih := b64_roundtrip rest (fun b hbm => hb b (by simp [hbm]))
    unfold b64DecodeLenient b64Encode
    rw [List.filterMap_cons, List.filterMap_cons, List.filterMap_cons,
      List.filterMap_cons,
      charToVal_valToChar _ (by omega), charToVal_valToChar _ (by omega),
      charToVal_valToChar _ (by omega), charToVal_valToChar _ (by omega)]
    unfold b64Regroup
    unfold b64DecodeLenient at ih
    rw [ih]
    simp only [List.cons.injEq, and_true]
    exact ⟨by omega, by omega, by omega⟩

lemma b64Encode_ne_nil (b : Nat) (l : Bytes) : b64Encode (b :: l) ≠ [] := by
  match l with
  | [] => simp [b64Encode]
  | [b2] => simp [b64Encode]
  | b2 :: b3 :: rest => simp [b64Encode]

/-- C8: whenever base64 decoding of the `eml_content` field throws (as it
does for a non-string value; the Node decoder never throws on strings), the
`/convert-api` handler responds with the dedicated client error — status
400, message distinct from the parse-failure message — and acquires no
page, so no rendering resource is touched. -/
theorem convertApi_decodeFailure (v : JsVal)
    (parse : Bytes → Except Str ParsedEmail) (rb : RenderBehavior)
    (maxH : Nat) (e : Str) (hv : jsValFalsy (some v) = false)
    (hd : nodeBufferFromBase64 v = .error e) :
    convertApiHandler (some v) parse rb maxH =
      { events := [], response := .err 400 invalidB64Msg } ∧
    invalidB64Msg ≠ emptyContentMsg := by
  constructor
  · unfold convertApiHandler
    rw [hv]
    simp only [Bool.false_eq_true, if_false]
    rw [hd]
  · decide

/-- Closed witness for `convertApi_decodeFailure`: a JSON number in the
`eml_content` field. -/
theorem convertApi_decodeFailure_witness :
    convertApiHandler (some (.num 42)) (fun _ => .ok textEmail)
        (.success 1024 100) 500 =
      { events := [], response := .err 400 invalidB64Msg } ∧
    invalidB64Msg ≠ emptyContentMsg :=
  convertApi_decodeFailure (.num 42) (fun _ => .ok textEmail)
    (.success 1024 100) 500
    "TypeError: first argument must be a string or buffer-like".toList
    rfl rfl

/-- C9: submitting the base64 encoding of a (non-empty) EML byte stream
to the `/convert-api` entry point produces exactly the result of
submitting the same bytes to the `/convert` entry point — in particular
the same sanitized metadata headers and the same truncation behaviour —
for every parser result and every render behaviour. -/
theorem roundTrip_entryPoints (bytes : Bytes)
    (parse : Bytes → Except Str ParsedEmail) (rb : RenderBehavior)
    (maxH : Nat) (hb : ∀ b ∈ bytes, b < 256) (hne : bytes ≠ []) :
    convertApiHandler (some (.str (b64Encode bytes))) parse rb maxH =
      convertHandler (some bytes) parse rb maxH := by
  obtain ⟨b, l, rfl⟩ : ∃ b l, bytes = b :: l := by
    cases bytes with
    | nil => exact absurd rfl hne
    | cons b l => exact ⟨b, l, rfl⟩
  have hfalsy : jsValFalsy (some (.str (b64Encode (b :: l)))) = false := by
    simp [jsValFalsy, List.isEmpty_iff, b64Encode_ne_nil]
  unfold convertApiHandler convertHandler
  rw [hfalsy]
  simp only [Bool.false_eq_true, if_false]
  have hOk : nodeBufferFromBase64 (.str (b64Encode (b :: l))) = .ok (b :: l) := by
    show Except.ok (b64DecodeLenient (b64Encode (b :: l))) = _
    rw [b64_roundtrip (b :: l) hb]
  rw [hOk]

/-- Closed witness for `roundTrip_entryPoints`. -/
theorem roundTrip_entryPoints_witness :
    convertApiHandler (some (.str (b64Encode [72, 105]))) (fun _ => .ok textEmail)
        (.success 1024 100) 500 =
      convertHandler (some [72, 105]) (fun _ => .ok textEmail)
        (.success 1024 100) 500 :=
  roundTrip_entryPoints [72, 105] (fun _ => .ok textEmail)
    (.success 1024 100) 500 (by decide) (by decide)
